import Mathlib

/-!
Shallow embedding of `src/main.rs` of the fluvio-collab-backend repository:
a collaborative-editing relay (HTTP submission endpoint, websocket sessions,
a Fluvio-backed durable log, a broadcast channel, and a webhook notification
sink).  JSON serialization is modelled by an executable JSON value type with
a renderer mirroring `serde_json::to_string` and a scalar-object reader
mirroring `serde_json::from_str` on the flat objects this program exchanges.
-/

/-- JSON scalar values; every JSON document this program produces or consumes
is a flat object whose values are strings, naturals, booleans or null. -/
inductive JVal where
  | jnull : JVal
  | jbool : Bool → JVal
  | jnat : Nat → JVal
  | jstr : String → JVal
deriving DecidableEq

/-- A JSON object: ordered field list, as serde emits struct fields. -/
abbrev JObj := List (String × JVal)

/-- First value bound to key `k`, as serde field lookup. -/
def jLookup (o : JObj) (k : String) : Option JVal :=
  match o with
  | [] => none
  | (k', v) :: rest => if k' = k then some v else jLookup rest k

/-- Decimal digit character, as Rust's `Display` for unsigned integers. -/
def digitChar (n : Nat) : Char :=
  if n = 0 then '0' else if n = 1 then '1' else if n = 2 then '2'
  else if n = 3 then '3' else if n = 4 then '4' else if n = 5 then '5'
  else if n = 6 then '6' else if n = 7 then '7' else if n = 8 then '8'
  else '9'

/-- Decimal digits of `n`, most significant first, with explicit fuel
(`n + 1` always suffices). -/
def natDigitsF : Nat → Nat → List Char
  | 0, _ => []
  | fuel + 1, n =>
    if n < 10 then [digitChar n]
    else natDigitsF fuel (n / 10) ++ [digitChar (n % 10)]

/-- Decimal rendering of a natural, as Rust formats `usize`/`u64`. -/
def natDigits (n : Nat) : List Char := natDigitsF (n + 1) n

/-- Decimal rendering as a string. -/
def natStr (n : Nat) : String := String.mk (natDigits n)

/-- Lower-case hex digit. -/
def hexDigit (n : Nat) : Char := if n < 10 then digitChar n else
  if n = 10 then 'a' else if n = 11 then 'b' else if n = 12 then 'c'
  else if n = 13 then 'd' else if n = 14 then 'e' else 'f'

/-- JSON escape of one character, as `serde_json` writes strings. -/
def escapeChar (c : Char) : List Char :=
  if c = '\"' then ['\\', '\"']
  else if c = '\\' then ['\\', '\\']
  else if c = '\n' then ['\\', 'n']
  else if c = '\t' then ['\\', 't']
  else if c = '\r' then ['\\', 'r']
  else if c.toNat = 8 then ['\\', 'b']
  else if c.toNat = 12 then ['\\', 'f']
  else if c.toNat < 32 then
    ['\\', 'u', '0', '0', hexDigit (c.toNat / 16), hexDigit (c.toNat % 16)]
  else [c]

/-- JSON escape of a character list. -/
def escList (l : List Char) : List Char := List.flatten (l.map escapeChar)

/-- JSON escape of a whole string. -/
def escapeStr (s : String) : String := String.mk (escList s.data)

/-- Characters of one rendered JSON scalar, as `serde_json::to_string`. -/
def renderValChars : JVal → List Char
  | JVal.jnull => ['n', 'u', 'l', 'l']
  | JVal.jbool true => ['t', 'r', 'u', 'e']
  | JVal.jbool false => ['f', 'a', 'l', 's', 'e']
  | JVal.jnat n => natDigits n
  | JVal.jstr s => '\"' :: (escList s.data ++ ['\"'])

/-- Render one JSON scalar, as `serde_json::to_string`. -/
def renderJVal (v : JVal) : String := String.mk (renderValChars v)

/-- Characters of the comma-separated member list of a rendered object. -/
def renderMembers : JObj → List Char
  | [] => []
  | [(k, v)] =>
    '\"' :: (escList k.data ++ '\"' :: ':' :: renderValChars v)
  | (k, v) :: rest =>
    '\"' :: (escList k.data ++ '\"' :: ':' ::
      (renderValChars v ++ ',' :: renderMembers rest))

/-- Render a flat JSON object, as `serde_json::to_string` (no spaces). -/
def renderJObj (o : JObj) : String :=
  String.mk ('\x7b' :: (renderMembers o ++ ['\x7d']))

/-- Skip JSON whitespace. -/
def skipWs : List Char → List Char
  | [] => []
  | c :: rest =>
    if c = ' ' || c = '\n' || c = '\t' || c = '\r' then skipWs rest
    else c :: rest

/-- Character denoted by a backslash escape inside a JSON string
(`\uXXXX` escapes are not modelled; this program never emits them for the
inputs the claims quantify over). -/
def escAfterBackslash (c : Char) : Option Char :=
  if c = '\"' then some '\"'
  else if c = '\\' then some '\\'
  else if c = '/' then some '/'
  else if c = 'n' then some '\n'
  else if c = 't' then some '\t'
  else if c = 'r' then some '\r'
  else if c = 'b' then some (Char.ofNat 8)
  else if c = 'f' then some (Char.ofNat 12)
  else none

/-- Numeric value of a hex digit, upper or lower case. -/
def hexVal (c : Char) : Option Nat :=
  if c.isDigit then some (c.toNat - 48)
  else if 'a' ≤ c ∧ c ≤ 'f' then some (c.toNat - 87)
  else if 'A' ≤ c ∧ c ≤ 'F' then some (c.toNat - 55)
  else none

/-- Scanner state inside a JSON string: plain text, just after a backslash,
or inside a `\uXXXX` escape with the count of hex digits still expected and
the accumulated code point. -/
inductive StrState where
  | plain : StrState
  | esc : StrState
  | hex : Nat → Nat → StrState

/-- Worker for JSON string bodies, one character per step.  Surrogate pairs
are not modelled (the renderer never emits them: it only uses `\u00XX` for
control characters); lone escapes in the surrogate range are rejected, as
serde rejects them. -/
def parseStringBodyAux : StrState → List Char → Option (List Char × List Char)
  | _, [] => none
  | StrState.plain, c :: rest =>
    if c = '\"' then some ([], rest)
    else if c = '\\' then parseStringBodyAux StrState.esc rest
    else if c.toNat < 32 then none
    else
      match parseStringBodyAux StrState.plain rest with
      | some (s, r) => some (c :: s, r)
      | none => none
  | StrState.esc, c :: rest =>
    if c = 'u' then parseStringBodyAux (StrState.hex 4 0) rest
    else
      match escAfterBackslash c with
      | some d =>
        match parseStringBodyAux StrState.plain rest with
        | some (s, r) => some (d :: s, r)
        | none => none
      | none => none
  | StrState.hex n acc, c :: rest =>
    match hexVal c with
    | some v =>
      match n with
      | 0 => none
      | 1 =>
        if 0xD800 ≤ acc * 16 + v ∧ acc * 16 + v < 0xE000 then none
        else
          match parseStringBodyAux StrState.plain rest with
          | some (s, r) => some (Char.ofNat (acc * 16 + v) :: s, r)
          | none => none
      | m + 2 => parseStringBodyAux (StrState.hex (m + 1) (acc * 16 + v)) rest
    | none => none

/-- Parse the body of a JSON string (after the opening quote); returns the
decoded characters and the remainder after the closing quote. -/
def parseStringBody (l : List Char) : Option (List Char × List Char) :=
  parseStringBodyAux StrState.plain l

/-- Consume a maximal run of decimal digits, accumulating their value. -/
def parseDigitsAux : Nat → List Char → Nat × List Char
  | acc, [] => (acc, [])
  | acc, c :: rest =>
    if c.isDigit then parseDigitsAux (acc * 10 + (c.toNat - 48)) rest
    else (acc, c :: rest)

/-- Parse one JSON scalar value (string, boolean, null or natural). -/
def parseScalar : List Char → Option (JVal × List Char)
  | [] => none
  | c :: rest =>
    if c = '\"' then
      match parseStringBody rest with
      | some (s, r) => some (JVal.jstr (String.mk s), r)
      | none => none
    else if c = 't' then
      match rest with
      | 'r' :: 'u' :: 'e' :: r => some (JVal.jbool true, r)
      | _ => none
    else if c = 'f' then
      match rest with
      | 'a' :: 'l' :: 's' :: 'e' :: r => some (JVal.jbool false, r)
      | _ => none
    else if c = 'n' then
      match rest with
      | 'u' :: 'l' :: 'l' :: r => some (JVal.jnull, r)
      | _ => none
    else if c.isDigit then
      some (JVal.jnat (parseDigitsAux (c.toNat - 48) rest).1,
            (parseDigitsAux (c.toNat - 48) rest).2)
    else none

/-- Parse one `"key": value` member and dispatch on the following `,` or
closing brace; `k` continues after a comma. -/
def parseMembersStep (k : List Char → Option (JObj × List Char))
    (l : List Char) : Option (JObj × List Char) :=
  match skipWs l with
  | '\"' :: rest =>
    match parseStringBody rest with
    | some (key, r1) =>
      match skipWs r1 with
      | ':' :: r3 =>
        match parseScalar (skipWs r3) with
        | some (v, r4) =>
          match skipWs r4 with
          | ',' :: r6 =>
            match k r6 with
            | some (o, r) => some ((String.mk key, v) :: o, r)
            | none => none
          | '\x7d' :: r6 => some ([(String.mk key, v)], r6)
          | _ => none
        | none => none
      | _ => none
    | none => none
  | _ => none

/-- Parse the members of a non-empty JSON object (after the opening brace);
fuel bounds the member count (the input length always suffices). -/
def parseMembersF : Nat → List Char → Option (JObj × List Char)
  | 0, _ => none
  | fuel + 1, l => parseMembersStep (parseMembersF fuel) l

/-- Parse an object body (after the opening brace): either an immediately
closed empty object, or a member list. -/
def parseJsonInner (rest : List Char) : Option JObj :=
  match skipWs rest with
  | '\x7d' :: r2 => if skipWs r2 = [] then some [] else none
  | _ =>
    match parseMembersF (rest.length + 1) rest with
    | some (o, r) => if skipWs r = [] then some o else none
    | none => none

/-- Dispatch on the opening brace. -/
def parseJsonTop : List Char → Option JObj
  | '\x7b' :: rest => parseJsonInner rest
  | _ => none

/-- Parse a whole input as one flat JSON object followed by only whitespace,
as `serde_json::from_str` on the shapes this program exchanges. -/
def parseJson (s : String) : Option JObj :=
  parseJsonTop (skipWs s.data)

/-- `EditEvent` of `src/main.rs` (usize/u64 modelled as Nat). -/
structure EditEvent where
  doc_id : String
  user_id : String
  operation : String
  position : Nat
  character : Option String
  timestamp : Nat
deriving DecidableEq

/-- `ClientMessage` of `src/main.rs`: internally tagged union
(`#[serde(tag = "type")]`). -/
inductive ClientMessage where
  | Edit : EditEvent → ClientMessage
  | Typing : String → String → Bool → ClientMessage
  | Cursor : String → String → Nat → ClientMessage
  | Join : String → String → ClientMessage
  | Leave : String → String → ClientMessage
deriving DecidableEq

/-- Serialize an `EditEvent` to a JSON object, field order as declared. -/
def serializeEditEvent (e : EditEvent) : JObj :=
  [("doc_id", JVal.jstr e.doc_id),
   ("user_id", JVal.jstr e.user_id),
   ("operation", JVal.jstr e.operation),
   ("position", JVal.jnat e.position),
   ("character", match e.character with
                 | some c => JVal.jstr c
                 | none => JVal.jnull),
   ("timestamp", JVal.jnat e.timestamp)]

/-- Read a required string field. -/
def readStr : Option JVal → Option String
  | some (JVal.jstr s) => some s
  | _ => none

/-- Read a required natural field. -/
def readNat : Option JVal → Option Nat
  | some (JVal.jnat n) => some n
  | _ => none

/-- Read a required boolean field. -/
def readBool : Option JVal → Option Bool
  | some (JVal.jbool b) => some b
  | _ => none

/-- Read an `Option<String>` field: null or missing is `none`, serde-style. -/
def readOptStr : Option JVal → Option (Option String)
  | none => some none
  | some JVal.jnull => some none
  | some (JVal.jstr s) => some (some s)
  | some _ => none

/-- Deserialize an `EditEvent` from a JSON object (unknown fields ignored,
as serde's default). -/
def deserializeEditEvent (o : JObj) : Option EditEvent :=
  match readStr (jLookup o "doc_id"), readStr (jLookup o "user_id"),
        readStr (jLookup o "operation"), readNat (jLookup o "position"),
        readOptStr (jLookup o "character"), readNat (jLookup o "timestamp") with
  | some d, some u, some op, some p, some ch, some t =>
    some ⟨d, u, op, p, ch, t⟩
  | _, _, _, _, _, _ => none

/-- Serialize a `ClientMessage` with its internal `type` tag. -/
def serializeClientMessage : ClientMessage → JObj
  | ClientMessage.Edit e => ("type", JVal.jstr "Edit") :: serializeEditEvent e
  | ClientMessage.Typing d u b =>
    [("type", JVal.jstr "Typing"), ("doc_id", JVal.jstr d),
     ("user_id", JVal.jstr u), ("is_typing", JVal.jbool b)]
  | ClientMessage.Cursor d u p =>
    [("type", JVal.jstr "Cursor"), ("doc_id", JVal.jstr d),
     ("user_id", JVal.jstr u), ("position", JVal.jnat p)]
  | ClientMessage.Join d u =>
    [("type", JVal.jstr "Join"), ("doc_id", JVal.jstr d),
     ("user_id", JVal.jstr u)]
  | ClientMessage.Leave d u =>
    [("type", JVal.jstr "Leave"), ("doc_id", JVal.jstr d),
     ("user_id", JVal.jstr u)]

/-- Deserialize a `ClientMessage`, dispatching on the `type` tag. -/
def deserializeClientMessage (o : JObj) : Option ClientMessage :=
  match readStr (jLookup o "type") with
  | some t =>
    if t = "Edit" then (deserializeEditEvent o).map ClientMessage.Edit
    else if t = "Typing" then
      match readStr (jLookup o "doc_id"), readStr (jLookup o "user_id"),
            readBool (jLookup o "is_typing") with
      | some d, some u, some b => some (ClientMessage.Typing d u b)
      | _, _, _ => none
    else if t = "Cursor" then
      match readStr (jLookup o "doc_id"), readStr (jLookup o "user_id"),
            readNat (jLookup o "position") with
      | some d, some u, some p => some (ClientMessage.Cursor d u p)
      | _, _, _ => none
    else if t = "Join" then
      match readStr (jLookup o "doc_id"), readStr (jLookup o "user_id") with
      | some d, some u => some (ClientMessage.Join d u)
      | _, _ => none
    else if t = "Leave" then
      match readStr (jLookup o "doc_id"), readStr (jLookup o "user_id") with
      | some d, some u => some (ClientMessage.Leave d u)
      | _, _ => none
    else none
  | none => none

/-- `serde_json::to_string(&event)` as the program calls it. -/
def renderEditEvent (e : EditEvent) : String :=
  renderJObj (serializeEditEvent e)

/-- `serde_json::from_str::<EditEvent>` as the fan-out loop calls it. -/
def decodeEditEvent (s : String) : Option EditEvent :=
  (parseJson s).bind deserializeEditEvent

/-- `serde_json::to_string` on a `ClientMessage`. -/
def renderClientMessage (m : ClientMessage) : String :=
  renderJObj (serializeClientMessage m)

/-- `serde_json::from_str::<ClientMessage>` as `handle_ws` calls it on each
inbound text frame. -/
def decodeClientMessage (s : String) : Option ClientMessage :=
  (parseJson s).bind deserializeClientMessage

/-- The Room Registry: `HashMap<String, Vec<String>>` of `AppState.rooms`,
modelled as a partial map from `doc_id` to the membership list. -/
def Rooms := String → Option (List String)

/-- Point update of the registry. -/
def Rooms.set (r : Rooms) (d : String) (l : List String) : Rooms :=
  fun d' => if d' = d then some l else r d'

/-- `rooms.entry(doc_id).or_default().push(uid)` of the Join handler. -/
def roomsJoin (r : Rooms) (d u : String) : Rooms :=
  Rooms.set r d (((r d).getD []) ++ [u])

/-- `if let Some(users) = rooms.get_mut(&doc_id) { users.retain(|x| x != &uid) }`
of the Leave handler and the disconnect cleanup. -/
def roomsLeave (r : Rooms) (d u : String) : Rooms :=
  match r d with
  | some l => Rooms.set r d (l.filter (fun x => decide (x ≠ u)))
  | none => r

/-- Per-connection mutable state of `handle_ws`: `current_doc` and `user_id`,
both initialized to the empty string. -/
structure SessionState where
  currentDoc : String
  currentUser : String
deriving DecidableEq

/-- The disconnect cleanup at the end of `handle_ws`: runs only when both
`current_doc` and `user_id` are non-empty. -/
def disconnectCleanup (s : SessionState) (r : Rooms) : Rooms :=
  if s.currentDoc ≠ "" ∧ s.currentUser ≠ "" then
    roomsLeave r s.currentDoc s.currentUser
  else r

/-- The Typing echo: `format!` with string interpolation, exactly as built
by the source (spaces after colons, raw `user_id` spliced in). -/
def typingIndicator (u : String) (b : Bool) : String :=
  "\x7b\"type\": \"typing\", \"user_id\": \"" ++ u ++
    "\", \"is_typing\": " ++ (if b then "true" else "false") ++ "\x7d"

/-- The Cursor echo, built the same way with a decimal position. -/
def cursorIndicator (u : String) (p : Nat) : String :=
  "\x7b\"type\": \"cursor\", \"user_id\": \"" ++ u ++
    "\", \"position\": " ++ natStr p ++ "\x7d"

/-- One ready event of the `tokio::select!` loop in `handle_ws`: a decoded
client text message, an undecodable client text (skipped by the
`if let Ok(..)` guard), or an `EditEvent` delivered by the broadcast bus. -/
inductive SessionInput where
  | client : ClientMessage → SessionInput
  | invalidText : SessionInput
  | bus : EditEvent → SessionInput

/-- Result of one iteration of the `handle_ws` select loop. -/
structure StepOut where
  session : SessionState
  rooms : Rooms
  sent : List String
  logAppends : List (String × String)
  running : Bool

/-- One iteration of the `handle_ws` select loop.  `sendOk` is the outcome
of the `socket.send` performed in this iteration, if any.  The Typing and
Cursor arms discard that outcome (`let _ = socket.send(..)`), the bus arm
breaks the loop when it fails (`if .. .is_err() { break }`). -/
def sessionStep (s : SessionState) (r : Rooms) (inp : SessionInput)
    (sendOk : Bool) : StepOut :=
  match inp with
  | SessionInput.client m =>
    match m with
    | ClientMessage.Edit e =>
      ⟨s, r, [], [(e.doc_id, renderEditEvent e)], true⟩
    | ClientMessage.Typing _ u b =>
      ⟨s, r, [typingIndicator u b], [], true⟩
    | ClientMessage.Cursor _ u p =>
      ⟨s, r, [cursorIndicator u p], [], true⟩
    | ClientMessage.Join d u =>
      ⟨⟨d, u⟩, roomsJoin r d u, [], [], true⟩
    | ClientMessage.Leave d u =>
      ⟨s, roomsLeave r d u, [], [], true⟩
  | SessionInput.invalidText => ⟨s, r, [], [], true⟩
  | SessionInput.bus e => ⟨s, r, [renderEditEvent e], [], sendOk⟩

/-- Process a sequence of decoded client messages through the select loop
(send outcomes are irrelevant to session state and registry). -/
def processMsgs : List ClientMessage → SessionState → Rooms →
    SessionState × Rooms
  | [], s, r => (s, r)
  | m :: ms, s, r =>
    let o := sessionStep s r (SessionInput.client m) true
    processMsgs ms o.session o.rooms

/-- `handle_send` of `src/main.rs`: serializes the payload, appends it to
the log, and returns the plain confirmation.  `appendResult` is the result
of `producer.send(..)`, discarded by the source (`let _ = ..`); producer
acquisition is assumed to succeed (the source would panic otherwise, which
is outside this claim set). -/
def handle_send (payload : EditEvent) (appendResult : Except String Unit) :
    String :=
  let _ := renderEditEvent payload
  let _ := appendResult
  "Message sent"

/-- `forward_to_webhook`: `resp` is the transport-level outcome of the
HTTP POST (error, or a status code).  A transport error propagates via `?`;
a non-success status is only logged and the function returns Ok. -/
def forward_to_webhook (resp : Except String Nat) (e : EditEvent) :
    Except String Unit :=
  let _ := e
  match resp with
  | Except.error msg => Except.error msg
  | Except.ok _ => Except.ok ()

instance : DecidableEq (Except String Unit) := fun a b =>
  match a, b with
  | Except.error x, Except.error y =>
    if h : x = y then isTrue (by rw [h]) else isFalse (by simp [h])
  | Except.ok _, Except.ok _ => isTrue rfl
  | Except.error _, Except.ok _ => isFalse (by simp)
  | Except.ok _, Except.error _ => isFalse (by simp)

/-- Observable actions of the fan-out loop: a Notification Sink call with
its (discarded) outcome, and a Broadcast Bus publish. -/
inductive FanEvent where
  | notify : EditEvent → Except String Unit → FanEvent
  | publish : EditEvent → FanEvent
deriving DecidableEq

/-- Body of the `while let` in `consume_and_forward` once the record value
has been obtained as a string: decode failure skips the record; otherwise
the webhook is called (its result discarded by `let _ =`) and the event is
published to the bus. -/
def fanoutOne (resp : Except String Nat) (v : String) : List FanEvent :=
  match decodeEditEvent v with
  | none => []
  | some e => [FanEvent.notify e (forward_to_webhook resp e),
               FanEvent.publish e]

/-- Strict UTF-8 decoding worker, one byte per step: `need` counts the
continuation bytes still expected, `acc` the partial code point, `lo` the
least code point the current sequence may legally produce (rejecting
overlong forms); surrogates and code points above 0x10FFFF are rejected,
as Rust's `String::from_utf8` rejects them. -/
def utf8DecodeAux : List Nat → Nat → Nat → Nat → Option (List Char)
  | [], 0, _, _ => some []
  | [], _ + 1, _, _ => none
  | b :: rest, 0, _, _ =>
    if b < 0x80 then
      match utf8DecodeAux rest 0 0 0 with
      | some cs => some (Char.ofNat b :: cs)
      | none => none
    else if 0xC0 ≤ b ∧ b < 0xE0 then utf8DecodeAux rest 1 (b - 0xC0) 0x80
    else if 0xE0 ≤ b ∧ b < 0xF0 then utf8DecodeAux rest 2 (b - 0xE0) 0x800
    else if 0xF0 ≤ b ∧ b < 0xF8 then utf8DecodeAux rest 3 (b - 0xF0) 0x10000
    else none
  | b :: rest, need + 1, acc, lo =>
    if 0x80 ≤ b ∧ b < 0xC0 then
      match need with
      | 0 =>
        if lo ≤ acc * 64 + (b - 0x80) ∧ acc * 64 + (b - 0x80) < 0x110000 ∧
            ¬(0xD800 ≤ acc * 64 + (b - 0x80) ∧ acc * 64 + (b - 0x80) < 0xE000)
        then
          match utf8DecodeAux rest 0 0 0 with
          | some cs => some (Char.ofNat (acc * 64 + (b - 0x80)) :: cs)
          | none => none
        else none
      | need2 + 1 => utf8DecodeAux rest (need2 + 1) (acc * 64 + (b - 0x80)) lo
    else none

/-- `record.value_string()`: the record's raw bytes decoded as UTF-8. -/
def utf8Decode (bytes : List Nat) : Option (List Char) :=
  utf8DecodeAux bytes 0 0 0

/-- How a run of the fan-out loop ended: the stream was exhausted, or the
`.unwrap()` on `value_string()` panicked on a non-UTF-8 record and killed
the task. -/
inductive LoopEnd where
  | completed : LoopEnd
  | panicked : LoopEnd
deriving DecidableEq

/-- The fan-out loop over a stream of raw records (byte values paired with
the webhook transport outcome each would observe).  A record whose bytes
are not valid UTF-8 makes `value_string().unwrap()` panic: the loop
terminates there and no later record is processed. -/
def fanoutLoop :
    List (List Nat × Except String Nat) → List FanEvent × LoopEnd
  | [] => ([], LoopEnd.completed)
  | (bytes, resp) :: rest =>
    match utf8Decode bytes with
    | none => ([], LoopEnd.panicked)
    | some chars =>
      ((fanoutOne resp (String.mk chars) ++ (fanoutLoop rest).1),
       (fanoutLoop rest).2)

/-- Registry-mutating operations of the process: a session's Join handler,
Leave handler, and disconnect cleanup. -/
inductive RegistryOp where
  | join : String → String → RegistryOp
  | leave : String → String → RegistryOp
  | disconnect : SessionState → RegistryOp

/-- Apply one registry operation. -/
def applyOp (r : Rooms) : RegistryOp → Rooms
  | RegistryOp.join d u => roomsJoin r d u
  | RegistryOp.leave d u => roomsLeave r d u
  | RegistryOp.disconnect s => disconnectCleanup s r

/-- Apply a sequence of registry operations. -/
def applyOps (ops : List RegistryOp) (r : Rooms) : Rooms :=
  ops.foldl applyOp r

/-- A Join message whose `doc_id` or `user_id` is empty (any other message
vacuously satisfies this). -/
def joinEmptyOk : ClientMessage → Bool
  | ClientMessage.Join d u => d = "" || u = ""
  | _ => true

/-- Escape-free strings: no quote, no backslash, no control character.  For
such a `user_id` the string-built echo happens to be well-formed JSON. -/
def escapeFreeB (s : String) : Bool :=
  s.data.all (fun c => !(c = '\"' : Bool) && !(c = '\\' : Bool) &&
    decide (32 ≤ c.toNat))

/-! ### Lemmas about the JSON renderer and the scalar-object reader -/

theorem parseStringBody_append (s : List Char) (r : List Char)
    (h : ∀ c ∈ s, ¬c = '\"' ∧ ¬c = '\\' ∧ 32 ≤ c.toNat) :
    parseStringBody (s ++ '\"' :: r) = some (s, r) := by
  unfold parseStringBody
  induction s with
  | nil => rfl
  | cons c cs ih =>
    have hc := h c (by simp)
    have hcs : ∀ c2 ∈ cs, ¬c2 = '\"' ∧ ¬c2 = '\\' ∧ 32 ≤ c2.toNat :=
      fun c2 hc2 => h c2 (by simp [hc2])
    simp only [List.cons_append, parseStringBodyAux]
    rw [if_neg hc.1, if_neg hc.2.1, if_neg (by omega : ¬c.toNat < 32)]
    simp only [List.append_eq]
    rw [ih hcs]

theorem digitChar_props (d : Nat) (h : d < 10) :
    ¬digitChar d = '\"' ∧ ¬digitChar d = 't' ∧ ¬digitChar d = 'f' ∧
    ¬digitChar d = 'n' ∧ (digitChar d).isDigit = true ∧
    (digitChar d).toNat - 48 = d ∧
    ((digitChar d = ' ' || digitChar d = '\n' || digitChar d = '\t' ||
      digitChar d = '\r') = false) := by
  interval_cases d <;> exact (by decide)

theorem natDigitsF_mem : ∀ fuel n c, c ∈ natDigitsF fuel n →
    ∃ d, d < 10 ∧ c = digitChar d := by
  intro fuel
  induction fuel with
  | zero => intro n c hc; simp [natDigitsF] at hc
  | succ f ih =>
    intro n c hc
    by_cases hn : n < 10
    · simp only [natDigitsF, if_pos hn, List.mem_singleton] at hc
      exact ⟨n, hn, hc⟩
    · simp only [natDigitsF, if_neg hn, List.mem_append,
        List.mem_singleton] at hc
      rcases hc with hc | hc
      · exact ih _ _ hc
      · exact ⟨n % 10, Nat.mod_lt _ (by omega), hc⟩

theorem natDigits_ne_nil (n : Nat) : natDigits n ≠ [] := by
  unfold natDigits natDigitsF
  by_cases hn : n < 10
  · simp [hn]
  · simp only [if_neg hn]
    intro h
    exact absurd (List.append_eq_nil.mp h).2 (by simp)

theorem parseDigitsAux_step (acc : Nat) (c : Char) (l : List Char)
    (h : c.isDigit = true) :
    parseDigitsAux acc (c :: l) =
      parseDigitsAux (acc * 10 + (c.toNat - 48)) l := by
  simp [parseDigitsAux, h]

theorem parseDigitsAux_stop (acc : Nat) (l : List Char)
    (h : l = [] ∨ ∃ c t, l = c :: t ∧ c.isDigit = false) :
    parseDigitsAux acc l = (acc, l) := by
  rcases h with h | ⟨c, t, rfl, hc⟩
  · simp [h, parseDigitsAux]
  · simp [parseDigitsAux, hc]

theorem parseDigits_natDigitsF : ∀ fuel n acc rest, n < 10 ^ fuel →
    parseDigitsAux acc (natDigitsF fuel n ++ rest) =
      parseDigitsAux (acc * 10 ^ (natDigitsF fuel n).length + n) rest := by
  intro fuel
  induction fuel with
  | zero =>
    intro n acc rest hn
    have : n = 0 := by simpa using hn
    simp [this, natDigitsF]
  | succ f ih =>
    intro n acc rest hn
    by_cases h10 : n < 10
    · have hd := digitChar_props n h10
      simp only [natDigitsF, if_pos h10, List.singleton_append,
        List.length_singleton]
      rw [parseDigitsAux_step _ _ _ hd.2.2.2.2.1, hd.2.2.2.2.2.1]
      norm_num
    · have hdiv : n / 10 < 10 ^ f := by
        rw [Nat.div_lt_iff_lt_mul (by norm_num)]
        calc n < 10 ^ (f + 1) := hn
        _ = 10 ^ f * 10 := by rw [pow_succ]
      have hd := digitChar_props (n % 10) (Nat.mod_lt _ (by omega))
      simp only [natDigitsF, if_neg h10, List.append_assoc,
        List.singleton_append, List.length_append, List.length_singleton]
      rw [ih _ _ _ hdiv, parseDigitsAux_step _ _ _ hd.2.2.2.2.1,
        hd.2.2.2.2.2.1]
      congr 1
      rw [pow_succ, ← Nat.mul_assoc]
      generalize acc * 10 ^ (natDigitsF f (n / 10)).length = Y
      omega

theorem parseScalar_natDigits (p : Nat) (r : List Char)
    (hr : r = [] ∨ ∃ c t, r = c :: t ∧ c.isDigit = false) :
    parseScalar (natDigits p ++ r) = some (JVal.jnat p, r) := by
  have hlt : p < 10 ^ (p + 1) := by
    calc p < 10 ^ p := Nat.lt_pow_self (by norm_num) p
    _ ≤ 10 ^ (p + 1) := Nat.pow_le_pow_right (by norm_num) (by omega)
  have hfull : parseDigitsAux 0 (natDigits p ++ r) = (p, r) := by
    rw [show natDigits p = natDigitsF (p + 1) p from rfl,
      parseDigits_natDigitsF _ _ _ _ hlt]
    simp only [Nat.zero_mul, Nat.zero_add]
    exact parseDigitsAux_stop _ _ hr
  cases hnd : natDigits p with
  | nil => exact absurd hnd (natDigits_ne_nil p)
  | cons c cs =>
    have hcmem : c ∈ natDigits p := by rw [hnd]; simp
    obtain ⟨d, hd10, rfl⟩ := natDigitsF_mem _ _ _ hcmem
    have hd := digitChar_props d hd10
    rw [hnd] at hfull
    rw [List.cons_append, parseDigitsAux_step _ _ _ hd.2.2.2.2.1] at hfull
    simp only [Nat.zero_mul, Nat.zero_add] at hfull
    simp only [List.cons_append, parseScalar]
    rw [if_neg hd.1, if_neg hd.2.1, if_neg hd.2.2.1, if_neg hd.2.2.2.1,
      if_pos hd.2.2.2.2.1, hfull]

theorem skipWs_natDigits (p : Nat) (l : List Char) :
    skipWs (natDigits p ++ l) = natDigits p ++ l := by
  cases hnd : natDigits p with
  | nil => exact absurd hnd (natDigits_ne_nil p)
  | cons c cs =>
    have hcmem : c ∈ natDigits p := by rw [hnd]; simp
    obtain ⟨d, hd10, rfl⟩ := natDigitsF_mem _ _ _ hcmem
    have hd := digitChar_props d hd10
    simp only [List.cons_append, skipWs]
    rw [if_neg (by simp [hd.2.2.2.2.2.2])]
    rfl

theorem parseMembersStep_eval_comma
    (k : List Char → Option (JObj × List Char))
    (l ks r1 r3 r4 r6 key : List Char) (v : JVal)
    (h0 : skipWs l = '\"' :: ks)
    (h1 : parseStringBody ks = some (key, r1))
    (h2 : skipWs r1 = ':' :: r3)
    (h3 : parseScalar (skipWs r3) = some (v, r4))
    (h4 : skipWs r4 = ',' :: r6) :
    parseMembersStep k l =
      match k r6 with
      | some (o, r) => some ((String.mk key, v) :: o, r)
      | none => none := by
  unfold parseMembersStep
  simp only [h0, h1, h2, h3, h4]

theorem parseMembersStep_eval_end
    (k : List Char → Option (JObj × List Char))
    (l ks r1 r3 r4 r6 key : List Char) (v : JVal)
    (h0 : skipWs l = '\"' :: ks)
    (h1 : parseStringBody ks = some (key, r1))
    (h2 : skipWs r1 = ':' :: r3)
    (h3 : parseScalar (skipWs r3) = some (v, r4))
    (h4 : skipWs r4 = '\x7d' :: r6) :
    parseMembersStep k l = some ([(String.mk key, v)], r6) := by
  unfold parseMembersStep
  simp only [h0, h1, h2, h3, h4]

theorem parseMembersStep_mono (k1 k2 : List Char → Option (JObj × List Char))
    (hk : ∀ l x, k1 l = some x → k2 l = some x) (l : List Char)
    (x : JObj × List Char) (h : parseMembersStep k1 l = some x) :
    parseMembersStep k2 l = some x := by
  unfold parseMembersStep at h ⊢
  repeat' split at h
  any_goals exact Option.noConfusion h
  any_goals exact h
  all_goals rename_i heq
  all_goals rw [hk _ _ heq]
  all_goals exact h

theorem parseMembersF_mono : ∀ f g : Nat, f ≤ g → ∀ l x,
    parseMembersF f l = some x → parseMembersF g l = some x := by
  intro f
  induction f with
  | zero => intro g hg l x h; simp [parseMembersF] at h
  | succ f ih =>
    intro g hg l x h
    obtain ⟨g2, rfl⟩ : ∃ g2, g = g2 + 1 := ⟨g - 1, by omega⟩
    have hfg : f ≤ g2 := by omega
    exact parseMembersStep_mono _ _ (fun l2 x2 => ih g2 hfg l2 x2) l x h

theorem skipWs_space (t : List Char) : skipWs (' ' :: t) = skipWs t := rfl

theorem skipWs_quot (t : List Char) : skipWs ('\"' :: t) = '\"' :: t := rfl

theorem skipWs_brace (t : List Char) : skipWs ('\x7b' :: t) = '\x7b' :: t :=
  rfl

theorem parseMembersF_succ (f : Nat) (l : List Char) :
    parseMembersF (f + 1) l = parseMembersStep (parseMembersF f) l := rfl

theorem parseScalar_str (u : String) (r : List Char)
    (hfree : ∀ c ∈ u.data, ¬c = '\"' ∧ ¬c = '\\' ∧ 32 ≤ c.toNat) :
    parseScalar ('\"' :: (u.data ++ '\"' :: r)) = some (JVal.jstr u, r) := by
  have hp := parseStringBody_append u.data r hfree
  unfold parseScalar
  simp only [hp]
  rw [if_pos trivial]

theorem parseJsonTop_brace (t : List Char) :
    parseJsonTop ('\x7b' :: t) = parseJsonInner t := rfl

theorem parseJsonInner_members (rest t : List Char)
    (h : skipWs rest = '\"' :: t) :
    parseJsonInner rest =
      match parseMembersF (rest.length + 1) rest with
      | some (o, r) => if skipWs r = [] then some o else none
      | none => none := by
  unfold parseJsonInner
  rw [h]
  rfl

theorem escapeFreeB_spec (u : String) (h : escapeFreeB u = true) :
    ∀ c ∈ u.data, ¬c = '\"' ∧ ¬c = '\\' ∧ 32 ≤ c.toNat := by
  intro c hc
  simp only [escapeFreeB, List.all_eq_true, Bool.and_eq_true,
    Bool.not_eq_true', decide_eq_false_iff_not, decide_eq_true_eq] at h
  obtain ⟨⟨h1, h2⟩, h3⟩ := h c hc
  exact ⟨h1, h2, h3⟩
/-- Character-level form of the Typing echo (true case). -/
theorem typingIndicator_data_true (uid : String) :
    (typingIndicator uid true).data =
      '\x7b' :: '\"' :: 't' :: 'y' :: 'p' :: 'e' :: '\"' :: ':' :: ' ' :: '\"' :: 't' :: 'y' :: 'p' :: 'i' :: 'n' :: 'g' :: '\"' :: ',' :: ' ' :: '\"' :: 'u' :: 's' :: 'e' :: 'r' :: '_' :: 'i' :: 'd' :: '\"' :: ':' :: ' ' :: '\"' :: (uid.data ++ ('\"' :: ',' :: ' ' :: '\"' :: 'i' :: 's' :: '_' :: 't' :: 'y' :: 'p' :: 'i' :: 'n' :: 'g' :: '\"' :: ':' :: ' ' :: 't' :: 'r' :: 'u' :: 'e' :: '\x7d' :: [])) := by
  simp only [typingIndicator, String.data_append, List.append_assoc]
  rfl

/-- Character-level form of the Typing echo (false case). -/
theorem typingIndicator_data_false (uid : String) :
    (typingIndicator uid false).data =
      '\x7b' :: '\"' :: 't' :: 'y' :: 'p' :: 'e' :: '\"' :: ':' :: ' ' :: '\"' :: 't' :: 'y' :: 'p' :: 'i' :: 'n' :: 'g' :: '\"' :: ',' :: ' ' :: '\"' :: 'u' :: 's' :: 'e' :: 'r' :: '_' :: 'i' :: 'd' :: '\"' :: ':' :: ' ' :: '\"' :: (uid.data ++ ('\"' :: ',' :: ' ' :: '\"' :: 'i' :: 's' :: '_' :: 't' :: 'y' :: 'p' :: 'i' :: 'n' :: 'g' :: '\"' :: ':' :: ' ' :: 'f' :: 'a' :: 'l' :: 's' :: 'e' :: '\x7d' :: [])) := by
  simp only [typingIndicator, String.data_append, List.append_assoc]
  rfl

/-- Character-level form of the Cursor echo. -/
theorem cursorIndicator_data (uid : String) (p : Nat) :
    (cursorIndicator uid p).data =
      '\x7b' :: '\"' :: 't' :: 'y' :: 'p' :: 'e' :: '\"' :: ':' :: ' ' :: '\"' :: 'c' :: 'u' :: 'r' :: 's' :: 'o' :: 'r' :: '\"' :: ',' :: ' ' :: '\"' :: 'u' :: 's' :: 'e' :: 'r' :: '_' :: 'i' :: 'd' :: '\"' :: ':' :: ' ' :: '\"' :: (uid.data ++ ('\"' :: ',' :: ' ' :: '\"' :: 'p' :: 'o' :: 's' :: 'i' :: 't' :: 'i' :: 'o' :: 'n' :: '\"' :: ':' :: ' ' :: (natDigits p ++ ['\x7d']))) := by
  simp only [cursorIndicator, natStr, String.data_append, List.append_assoc]
  rfl

/-- With an escape-free user_id, the Typing echo parses as the documented
object (true case). -/
theorem parseJson_typing_true (uid : String)
    (hfree : ∀ c ∈ uid.data, ¬c = '\"' ∧ ¬c = '\\' ∧ 32 ≤ c.toNat) :
    parseJson (typingIndicator uid true) =
      some [("type", JVal.jstr "typing"), ("user_id", JVal.jstr uid),
            ("is_typing", JVal.jbool true)] := by
  have m3 : parseMembersF 1 (' ' :: '\"' :: 'i' :: 's' :: '_' :: 't' :: 'y' :: 'p' :: 'i' :: 'n' :: 'g' :: '\"' :: ':' :: ' ' :: 't' :: 'r' :: 'u' :: 'e' :: '\x7d' :: []) =
      some ([("is_typing", JVal.jbool true)], []) := rfl
  have hval : parseScalar (skipWs (' ' :: '\"' :: (uid.data ++ ('\"' :: ',' :: ' ' :: '\"' :: 'i' :: 's' :: '_' :: 't' :: 'y' :: 'p' :: 'i' :: 'n' :: 'g' :: '\"' :: ':' :: ' ' :: 't' :: 'r' :: 'u' :: 'e' :: '\x7d' :: [])))) =
      some (JVal.jstr uid, ',' :: ' ' :: '\"' :: 'i' :: 's' :: '_' :: 't' :: 'y' :: 'p' :: 'i' :: 'n' :: 'g' :: '\"' :: ':' :: ' ' :: 't' :: 'r' :: 'u' :: 'e' :: '\x7d' :: []) := by
    rw [skipWs_space, skipWs_quot]
    exact parseScalar_str uid (',' :: ' ' :: '\"' :: 'i' :: 's' :: '_' :: 't' :: 'y' :: 'p' :: 'i' :: 'n' :: 'g' :: '\"' :: ':' :: ' ' :: 't' :: 'r' :: 'u' :: 'e' :: '\x7d' :: []) hfree
  have m2 : parseMembersF 2 (' ' :: '\"' :: 'u' :: 's' :: 'e' :: 'r' :: '_' :: 'i' :: 'd' :: '\"' :: ':' :: ' ' :: '\"' :: (uid.data ++ ('\"' :: ',' :: ' ' :: '\"' :: 'i' :: 's' :: '_' :: 't' :: 'y' :: 'p' :: 'i' :: 'n' :: 'g' :: '\"' :: ':' :: ' ' :: 't' :: 'r' :: 'u' :: 'e' :: '\x7d' :: []))) =
      some ([("user_id", JVal.jstr uid), ("is_typing", JVal.jbool true)], []) := by
    rw [show (2 : Nat) = 1 + 1 from rfl, parseMembersF_succ,
      parseMembersStep_eval_comma (parseMembersF 1) (' ' :: '\"' :: 'u' :: 's' :: 'e' :: 'r' :: '_' :: 'i' :: 'd' :: '\"' :: ':' :: ' ' :: '\"' :: (uid.data ++ ('\"' :: ',' :: ' ' :: '\"' :: 'i' :: 's' :: '_' :: 't' :: 'y' :: 'p' :: 'i' :: 'n' :: 'g' :: '\"' :: ':' :: ' ' :: 't' :: 'r' :: 'u' :: 'e' :: '\x7d' :: [])))
        _ _ _ _ _ _ _ rfl rfl rfl hval rfl, m3]
  have m1 : parseMembersF 3 ('\"' :: 't' :: 'y' :: 'p' :: 'e' :: '\"' :: ':' :: ' ' :: '\"' :: 't' :: 'y' :: 'p' :: 'i' :: 'n' :: 'g' :: '\"' :: ',' :: ' ' :: '\"' :: 'u' :: 's' :: 'e' :: 'r' :: '_' :: 'i' :: 'd' :: '\"' :: ':' :: ' ' :: '\"' :: (uid.data ++ ('\"' :: ',' :: ' ' :: '\"' :: 'i' :: 's' :: '_' :: 't' :: 'y' :: 'p' :: 'i' :: 'n' :: 'g' :: '\"' :: ':' :: ' ' :: 't' :: 'r' :: 'u' :: 'e' :: '\x7d' :: []))) =
      some ([("type", JVal.jstr "typing"), ("user_id", JVal.jstr uid),
             ("is_typing", JVal.jbool true)], []) := by
    rw [show (3 : Nat) = 2 + 1 from rfl, parseMembersF_succ,
      parseMembersStep_eval_comma (parseMembersF 2) ('\"' :: 't' :: 'y' :: 'p' :: 'e' :: '\"' :: ':' :: ' ' :: '\"' :: 't' :: 'y' :: 'p' :: 'i' :: 'n' :: 'g' :: '\"' :: ',' :: ' ' :: '\"' :: 'u' :: 's' :: 'e' :: 'r' :: '_' :: 'i' :: 'd' :: '\"' :: ':' :: ' ' :: '\"' :: (uid.data ++ ('\"' :: ',' :: ' ' :: '\"' :: 'i' :: 's' :: '_' :: 't' :: 'y' :: 'p' :: 'i' :: 'n' :: 'g' :: '\"' :: ':' :: ' ' :: 't' :: 'r' :: 'u' :: 'e' :: '\x7d' :: [])))
        _ _ _ _ _ _ _ rfl rfl rfl rfl rfl, m2]
  have hmono : parseMembersF (('\"' :: 't' :: 'y' :: 'p' :: 'e' :: '\"' :: ':' :: ' ' :: '\"' :: 't' :: 'y' :: 'p' :: 'i' :: 'n' :: 'g' :: '\"' :: ',' :: ' ' :: '\"' :: 'u' :: 's' :: 'e' :: 'r' :: '_' :: 'i' :: 'd' :: '\"' :: ':' :: ' ' :: '\"' :: (uid.data ++ ('\"' :: ',' :: ' ' :: '\"' :: 'i' :: 's' :: '_' :: 't' :: 'y' :: 'p' :: 'i' :: 'n' :: 'g' :: '\"' :: ':' :: ' ' :: 't' :: 'r' :: 'u' :: 'e' :: '\x7d' :: []))).length + 1) ('\"' :: 't' :: 'y' :: 'p' :: 'e' :: '\"' :: ':' :: ' ' :: '\"' :: 't' :: 'y' :: 'p' :: 'i' :: 'n' :: 'g' :: '\"' :: ',' :: ' ' :: '\"' :: 'u' :: 's' :: 'e' :: 'r' :: '_' :: 'i' :: 'd' :: '\"' :: ':' :: ' ' :: '\"' :: (uid.data ++ ('\"' :: ',' :: ' ' :: '\"' :: 'i' :: 's' :: '_' :: 't' :: 'y' :: 'p' :: 'i' :: 'n' :: 'g' :: '\"' :: ':' :: ' ' :: 't' :: 'r' :: 'u' :: 'e' :: '\x7d' :: []))) =
      some ([("type", JVal.jstr "typing"), ("user_id", JVal.jstr uid),
             ("is_typing", JVal.jbool true)], []) :=
    parseMembersF_mono 3 _ (by simp [List.length_append]) _ _ m1
  have hinner := parseJsonInner_members ('\"' :: 't' :: 'y' :: 'p' :: 'e' :: '\"' :: ':' :: ' ' :: '\"' :: 't' :: 'y' :: 'p' :: 'i' :: 'n' :: 'g' :: '\"' :: ',' :: ' ' :: '\"' :: 'u' :: 's' :: 'e' :: 'r' :: '_' :: 'i' :: 'd' :: '\"' :: ':' :: ' ' :: '\"' :: (uid.data ++ ('\"' :: ',' :: ' ' :: '\"' :: 'i' :: 's' :: '_' :: 't' :: 'y' :: 'p' :: 'i' :: 'n' :: 'g' :: '\"' :: ':' :: ' ' :: 't' :: 'r' :: 'u' :: 'e' :: '\x7d' :: []))) _ rfl
  unfold parseJson
  rw [typingIndicator_data_true, skipWs_brace, parseJsonTop_brace, hinner, hmono]
  rfl

/-- With an escape-free user_id, the Typing echo parses as the documented
object (false case). -/
theorem parseJson_typing_false (uid : String)
    (hfree : ∀ c ∈ uid.data, ¬c = '\"' ∧ ¬c = '\\' ∧ 32 ≤ c.toNat) :
    parseJson (typingIndicator uid false) =
      some [("type", JVal.jstr "typing"), ("user_id", JVal.jstr uid),
            ("is_typing", JVal.jbool false)] := by
  have m3 : parseMembersF 1 (' ' :: '\"' :: 'i' :: 's' :: '_' :: 't' :: 'y' :: 'p' :: 'i' :: 'n' :: 'g' :: '\"' :: ':' :: ' ' :: 'f' :: 'a' :: 'l' :: 's' :: 'e' :: '\x7d' :: []) =
      some ([("is_typing", JVal.jbool false)], []) := rfl
  have hval : parseScalar (skipWs (' ' :: '\"' :: (uid.data ++ ('\"' :: ',' :: ' ' :: '\"' :: 'i' :: 's' :: '_' :: 't' :: 'y' :: 'p' :: 'i' :: 'n' :: 'g' :: '\"' :: ':' :: ' ' :: 'f' :: 'a' :: 'l' :: 's' :: 'e' :: '\x7d' :: [])))) =
      some (JVal.jstr uid, ',' :: ' ' :: '\"' :: 'i' :: 's' :: '_' :: 't' :: 'y' :: 'p' :: 'i' :: 'n' :: 'g' :: '\"' :: ':' :: ' ' :: 'f' :: 'a' :: 'l' :: 's' :: 'e' :: '\x7d' :: []) := by
    rw [skipWs_space, skipWs_quot]
    exact parseScalar_str uid (',' :: ' ' :: '\"' :: 'i' :: 's' :: '_' :: 't' :: 'y' :: 'p' :: 'i' :: 'n' :: 'g' :: '\"' :: ':' :: ' ' :: 'f' :: 'a' :: 'l' :: 's' :: 'e' :: '\x7d' :: []) hfree
  have m2 : parseMembersF 2 (' ' :: '\"' :: 'u' :: 's' :: 'e' :: 'r' :: '_' :: 'i' :: 'd' :: '\"' :: ':' :: ' ' :: '\"' :: (uid.data ++ ('\"' :: ',' :: ' ' :: '\"' :: 'i' :: 's' :: '_' :: 't' :: 'y' :: 'p' :: 'i' :: 'n' :: 'g' :: '\"' :: ':' :: ' ' :: 'f' :: 'a' :: 'l' :: 's' :: 'e' :: '\x7d' :: []))) =
      some ([("user_id", JVal.jstr uid), ("is_typing", JVal.jbool false)], []) := by
    rw [show (2 : Nat) = 1 + 1 from rfl, parseMembersF_succ,
      parseMembersStep_eval_comma (parseMembersF 1) (' ' :: '\"' :: 'u' :: 's' :: 'e' :: 'r' :: '_' :: 'i' :: 'd' :: '\"' :: ':' :: ' ' :: '\"' :: (uid.data ++ ('\"' :: ',' :: ' ' :: '\"' :: 'i' :: 's' :: '_' :: 't' :: 'y' :: 'p' :: 'i' :: 'n' :: 'g' :: '\"' :: ':' :: ' ' :: 'f' :: 'a' :: 'l' :: 's' :: 'e' :: '\x7d' :: [])))
        _ _ _ _ _ _ _ rfl rfl rfl hval rfl, m3]
  have m1 : parseMembersF 3 ('\"' :: 't' :: 'y' :: 'p' :: 'e' :: '\"' :: ':' :: ' ' :: '\"' :: 't' :: 'y' :: 'p' :: 'i' :: 'n' :: 'g' :: '\"' :: ',' :: ' ' :: '\"' :: 'u' :: 's' :: 'e' :: 'r' :: '_' :: 'i' :: 'd' :: '\"' :: ':' :: ' ' :: '\"' :: (uid.data ++ ('\"' :: ',' :: ' ' :: '\"' :: 'i' :: 's' :: '_' :: 't' :: 'y' :: 'p' :: 'i' :: 'n' :: 'g' :: '\"' :: ':' :: ' ' :: 'f' :: 'a' :: 'l' :: 's' :: 'e' :: '\x7d' :: []))) =
      some ([("type", JVal.jstr "typing"), ("user_id", JVal.jstr uid),
             ("is_typing", JVal.jbool false)], []) := by
    rw [show (3 : Nat) = 2 + 1 from rfl, parseMembersF_succ,
      parseMembersStep_eval_comma (parseMembersF 2) ('\"' :: 't' :: 'y' :: 'p' :: 'e' :: '\"' :: ':' :: ' ' :: '\"' :: 't' :: 'y' :: 'p' :: 'i' :: 'n' :: 'g' :: '\"' :: ',' :: ' ' :: '\"' :: 'u' :: 's' :: 'e' :: 'r' :: '_' :: 'i' :: 'd' :: '\"' :: ':' :: ' ' :: '\"' :: (uid.data ++ ('\"' :: ',' :: ' ' :: '\"' :: 'i' :: 's' :: '_' :: 't' :: 'y' :: 'p' :: 'i' :: 'n' :: 'g' :: '\"' :: ':' :: ' ' :: 'f' :: 'a' :: 'l' :: 's' :: 'e' :: '\x7d' :: [])))
        _ _ _ _ _ _ _ rfl rfl rfl rfl rfl, m2]
  have hmono : parseMembersF (('\"' :: 't' :: 'y' :: 'p' :: 'e' :: '\"' :: ':' :: ' ' :: '\"' :: 't' :: 'y' :: 'p' :: 'i' :: 'n' :: 'g' :: '\"' :: ',' :: ' ' :: '\"' :: 'u' :: 's' :: 'e' :: 'r' :: '_' :: 'i' :: 'd' :: '\"' :: ':' :: ' ' :: '\"' :: (uid.data ++ ('\"' :: ',' :: ' ' :: '\"' :: 'i' :: 's' :: '_' :: 't' :: 'y' :: 'p' :: 'i' :: 'n' :: 'g' :: '\"' :: ':' :: ' ' :: 'f' :: 'a' :: 'l' :: 's' :: 'e' :: '\x7d' :: []))).length + 1) ('\"' :: 't' :: 'y' :: 'p' :: 'e' :: '\"' :: ':' :: ' ' :: '\"' :: 't' :: 'y' :: 'p' :: 'i' :: 'n' :: 'g' :: '\"' :: ',' :: ' ' :: '\"' :: 'u' :: 's' :: 'e' :: 'r' :: '_' :: 'i' :: 'd' :: '\"' :: ':' :: ' ' :: '\"' :: (uid.data ++ ('\"' :: ',' :: ' ' :: '\"' :: 'i' :: 's' :: '_' :: 't' :: 'y' :: 'p' :: 'i' :: 'n' :: 'g' :: '\"' :: ':' :: ' ' :: 'f' :: 'a' :: 'l' :: 's' :: 'e' :: '\x7d' :: []))) =
      some ([("type", JVal.jstr "typing"), ("user_id", JVal.jstr uid),
             ("is_typing", JVal.jbool false)], []) :=
    parseMembersF_mono 3 _ (by simp [List.length_append]) _ _ m1
  have hinner := parseJsonInner_members ('\"' :: 't' :: 'y' :: 'p' :: 'e' :: '\"' :: ':' :: ' ' :: '\"' :: 't' :: 'y' :: 'p' :: 'i' :: 'n' :: 'g' :: '\"' :: ',' :: ' ' :: '\"' :: 'u' :: 's' :: 'e' :: 'r' :: '_' :: 'i' :: 'd' :: '\"' :: ':' :: ' ' :: '\"' :: (uid.data ++ ('\"' :: ',' :: ' ' :: '\"' :: 'i' :: 's' :: '_' :: 't' :: 'y' :: 'p' :: 'i' :: 'n' :: 'g' :: '\"' :: ':' :: ' ' :: 'f' :: 'a' :: 'l' :: 's' :: 'e' :: '\x7d' :: []))) _ rfl
  unfold parseJson
  rw [typingIndicator_data_false, skipWs_brace, parseJsonTop_brace, hinner, hmono]
  rfl

/-- With an escape-free user_id, the Cursor echo parses as the documented
object. -/
theorem parseJson_cursor (uid : String) (p : Nat)
    (hfree : ∀ c ∈ uid.data, ¬c = '\"' ∧ ¬c = '\\' ∧ 32 ≤ c.toNat) :
    parseJson (cursorIndicator uid p) =
      some [("type", JVal.jstr "cursor"), ("user_id", JVal.jstr uid),
            ("position", JVal.jnat p)] := by
  have hvalp : parseScalar (skipWs (' ' :: (natDigits p ++ ['\x7d']))) =
      some (JVal.jnat p, ['\x7d']) := by
    rw [skipWs_space, skipWs_natDigits]
    exact parseScalar_natDigits p ['\x7d'] (Or.inr ⟨'\x7d', [], rfl, by decide⟩)
  have m3 : parseMembersF 1 (' ' :: '\"' :: 'p' :: 'o' :: 's' :: 'i' :: 't' :: 'i' :: 'o' :: 'n' :: '\"' :: ':' :: ' ' :: (natDigits p ++ ['\x7d'])) =
      some ([("position", JVal.jnat p)], []) := by
    rw [show (1 : Nat) = 0 + 1 from rfl, parseMembersF_succ,
      parseMembersStep_eval_end (parseMembersF 0) (' ' :: '\"' :: 'p' :: 'o' :: 's' :: 'i' :: 't' :: 'i' :: 'o' :: 'n' :: '\"' :: ':' :: ' ' :: (natDigits p ++ ['\x7d']))
        _ _ _ _ _ _ _ rfl rfl rfl hvalp rfl]
  have hval : parseScalar (skipWs (' ' :: '\"' :: (uid.data ++ ('\"' :: ',' :: ' ' :: '\"' :: 'p' :: 'o' :: 's' :: 'i' :: 't' :: 'i' :: 'o' :: 'n' :: '\"' :: ':' :: ' ' :: (natDigits p ++ ['\x7d']))))) =
      some (JVal.jstr uid, ',' :: ' ' :: '\"' :: 'p' :: 'o' :: 's' :: 'i' :: 't' :: 'i' :: 'o' :: 'n' :: '\"' :: ':' :: ' ' :: (natDigits p ++ ['\x7d'])) := by
    rw [skipWs_space, skipWs_quot]
    exact parseScalar_str uid (',' :: ' ' :: '\"' :: 'p' :: 'o' :: 's' :: 'i' :: 't' :: 'i' :: 'o' :: 'n' :: '\"' :: ':' :: ' ' :: (natDigits p ++ ['\x7d'])) hfree
  have m2 : parseMembersF 2 (' ' :: '\"' :: 'u' :: 's' :: 'e' :: 'r' :: '_' :: 'i' :: 'd' :: '\"' :: ':' :: ' ' :: '\"' :: (uid.data ++ ('\"' :: ',' :: ' ' :: '\"' :: 'p' :: 'o' :: 's' :: 'i' :: 't' :: 'i' :: 'o' :: 'n' :: '\"' :: ':' :: ' ' :: (natDigits p ++ ['\x7d'])))) =
      some ([("user_id", JVal.jstr uid), ("position", JVal.jnat p)], []) := by
    rw [show (2 : Nat) = 1 + 1 from rfl, parseMembersF_succ,
      parseMembersStep_eval_comma (parseMembersF 1) (' ' :: '\"' :: 'u' :: 's' :: 'e' :: 'r' :: '_' :: 'i' :: 'd' :: '\"' :: ':' :: ' ' :: '\"' :: (uid.data ++ ('\"' :: ',' :: ' ' :: '\"' :: 'p' :: 'o' :: 's' :: 'i' :: 't' :: 'i' :: 'o' :: 'n' :: '\"' :: ':' :: ' ' :: (natDigits p ++ ['\x7d']))))
        _ _ _ _ _ _ _ rfl rfl rfl hval rfl, m3]
  have m1 : parseMembersF 3 ('\"' :: 't' :: 'y' :: 'p' :: 'e' :: '\"' :: ':' :: ' ' :: '\"' :: 'c' :: 'u' :: 'r' :: 's' :: 'o' :: 'r' :: '\"' :: ',' :: ' ' :: '\"' :: 'u' :: 's' :: 'e' :: 'r' :: '_' :: 'i' :: 'd' :: '\"' :: ':' :: ' ' :: '\"' :: (uid.data ++ ('\"' :: ',' :: ' ' :: '\"' :: 'p' :: 'o' :: 's' :: 'i' :: 't' :: 'i' :: 'o' :: 'n' :: '\"' :: ':' :: ' ' :: (natDigits p ++ ['\x7d'])))) =
      some ([("type", JVal.jstr "cursor"), ("user_id", JVal.jstr uid),
             ("position", JVal.jnat p)], []) := by
    rw [show (3 : Nat) = 2 + 1 from rfl, parseMembersF_succ,
      parseMembersStep_eval_comma (parseMembersF 2) ('\"' :: 't' :: 'y' :: 'p' :: 'e' :: '\"' :: ':' :: ' ' :: '\"' :: 'c' :: 'u' :: 'r' :: 's' :: 'o' :: 'r' :: '\"' :: ',' :: ' ' :: '\"' :: 'u' :: 's' :: 'e' :: 'r' :: '_' :: 'i' :: 'd' :: '\"' :: ':' :: ' ' :: '\"' :: (uid.data ++ ('\"' :: ',' :: ' ' :: '\"' :: 'p' :: 'o' :: 's' :: 'i' :: 't' :: 'i' :: 'o' :: 'n' :: '\"' :: ':' :: ' ' :: (natDigits p ++ ['\x7d']))))
        _ _ _ _ _ _ _ rfl rfl rfl rfl rfl, m2]
  have hmono : parseMembersF (('\"' :: 't' :: 'y' :: 'p' :: 'e' :: '\"' :: ':' :: ' ' :: '\"' :: 'c' :: 'u' :: 'r' :: 's' :: 'o' :: 'r' :: '\"' :: ',' :: ' ' :: '\"' :: 'u' :: 's' :: 'e' :: 'r' :: '_' :: 'i' :: 'd' :: '\"' :: ':' :: ' ' :: '\"' :: (uid.data ++ ('\"' :: ',' :: ' ' :: '\"' :: 'p' :: 'o' :: 's' :: 'i' :: 't' :: 'i' :: 'o' :: 'n' :: '\"' :: ':' :: ' ' :: (natDigits p ++ ['\x7d'])))).length + 1) ('\"' :: 't' :: 'y' :: 'p' :: 'e' :: '\"' :: ':' :: ' ' :: '\"' :: 'c' :: 'u' :: 'r' :: 's' :: 'o' :: 'r' :: '\"' :: ',' :: ' ' :: '\"' :: 'u' :: 's' :: 'e' :: 'r' :: '_' :: 'i' :: 'd' :: '\"' :: ':' :: ' ' :: '\"' :: (uid.data ++ ('\"' :: ',' :: ' ' :: '\"' :: 'p' :: 'o' :: 's' :: 'i' :: 't' :: 'i' :: 'o' :: 'n' :: '\"' :: ':' :: ' ' :: (natDigits p ++ ['\x7d'])))) =
      some ([("type", JVal.jstr "cursor"), ("user_id", JVal.jstr uid),
             ("position", JVal.jnat p)], []) :=
    parseMembersF_mono 3 _ (by simp [List.length_append]) _ _ m1
  have hinner := parseJsonInner_members ('\"' :: 't' :: 'y' :: 'p' :: 'e' :: '\"' :: ':' :: ' ' :: '\"' :: 'c' :: 'u' :: 'r' :: 's' :: 'o' :: 'r' :: '\"' :: ',' :: ' ' :: '\"' :: 'u' :: 's' :: 'e' :: 'r' :: '_' :: 'i' :: 'd' :: '\"' :: ':' :: ' ' :: '\"' :: (uid.data ++ ('\"' :: ',' :: ' ' :: '\"' :: 'p' :: 'o' :: 's' :: 'i' :: 't' :: 'i' :: 'o' :: 'n' :: '\"' :: ':' :: ' ' :: (natDigits p ++ ['\x7d'])))) _ rfl
  unfold parseJson
  rw [cursorIndicator_data, skipWs_brace, parseJsonTop_brace, hinner, hmono]
  rfl


/-- The hex digits the renderer writes read back to their value. -/
theorem hexVal_hexDigit (v : Nat) (h : v < 16) :
    hexVal (hexDigit v) = some v := by
  interval_cases v <;> decide

/-- String-body scanner on an unescaped ordinary character. -/
theorem psbAux_cons_plain (c : Char) (t : List Char) (h1 : ¬c = '\"')
    (h2 : ¬c = '\\') (h3 : ¬c.toNat < 32) :
    parseStringBodyAux StrState.plain (c :: t) =
      match parseStringBodyAux StrState.plain t with
      | some (s, r) => some (c :: s, r)
      | none => none := by
  simp only [parseStringBodyAux]
  rw [if_neg h1, if_neg h2, if_neg h3]

/-- String-body scanner on a single-character backslash escape. -/
theorem psbAux_esc (e d : Char) (t : List Char) (he : ¬e = 'u')
    (hd : escAfterBackslash e = some d) :
    parseStringBodyAux StrState.plain ('\\' :: e :: t) =
      match parseStringBodyAux StrState.plain t with
      | some (s, r) => some (d :: s, r)
      | none => none := by
  simp [parseStringBodyAux, he, hd]

/-- String-body scanner on a `\uXXXX` escape. -/
theorem psbAux_u (h1c h2c h3c h4c : Char) (v1 v2 v3 v4 : Nat)
    (t : List Char)
    (e1 : hexVal h1c = some v1) (e2 : hexVal h2c = some v2)
    (e3 : hexVal h3c = some v3) (e4 : hexVal h4c = some v4)
    (hcp : ¬(0xD800 ≤ ((v1 * 16 + v2) * 16 + v3) * 16 + v4 ∧
      ((v1 * 16 + v2) * 16 + v3) * 16 + v4 < 0xE000)) :
    parseStringBodyAux StrState.plain
      ('\\' :: 'u' :: h1c :: h2c :: h3c :: h4c :: t) =
      match parseStringBodyAux StrState.plain t with
      | some (s, r) =>
        some (Char.ofNat (((v1 * 16 + v2) * 16 + v3) * 16 + v4) :: s, r)
      | none => none := by
  simp only [parseStringBodyAux]
  rw [if_neg (by decide : ¬('\\' : Char) = '\"')]
  simp only [if_pos (rfl : ('\\' : Char) = '\\'),
    if_pos (rfl : ('u' : Char) = 'u'), e1, e2, e3, e4]
  norm_num
  intro ha hb
  exact absurd ⟨ha, hb⟩ hcp

/-- Serde-style escaping followed by string-body parsing is the identity,
for every character list. -/
theorem parseStringBody_escList (l : List Char) (r : List Char) :
    parseStringBody (escList l ++ '\"' :: r) = some (l, r) := by
  unfold parseStringBody
  induction l with
  | nil => rfl
  | cons c cs ih =>
    have hstep : escList (c :: cs) ++ '\"' :: r =
        escapeChar c ++ (escList cs ++ '\"' :: r) := by
      simp [escList, List.append_assoc]
    rw [hstep]
    by_cases h1 : c = '\"'
    · subst h1
      rw [show escapeChar '\"' = ['\\', '\"'] from rfl, List.cons_append,
        List.cons_append, List.nil_append,
        psbAux_esc '\"' '\"' _ (by decide) (by decide), ih]
    · by_cases h2 : c = '\\'
      · subst h2
        rw [show escapeChar '\\' = ['\\', '\\'] from rfl, List.cons_append,
          List.cons_append, List.nil_append,
          psbAux_esc '\\' '\\' _ (by decide) (by decide), ih]
      · by_cases h3 : c = '\n'
        · subst h3
          rw [show escapeChar '\n' = ['\\', 'n'] from rfl, List.cons_append,
            List.cons_append, List.nil_append,
            psbAux_esc 'n' '\n' _ (by decide) (by decide), ih]
        · by_cases h4 : c = '\t'
          · subst h4
            rw [show escapeChar '\t' = ['\\', 't'] from rfl,
              List.cons_append, List.cons_append, List.nil_append,
              psbAux_esc 't' '\t' _ (by decide) (by decide), ih]
          · by_cases h5 : c = '\r'
            · subst h5
              rw [show escapeChar '\r' = ['\\', 'r'] from rfl,
                List.cons_append, List.cons_append, List.nil_append,
                psbAux_esc 'r' '\r' _ (by decide) (by decide), ih]
            · by_cases h6 : c.toNat = 8
              · have hesc : escapeChar c = ['\\', 'b'] := by
                  simp [escapeChar, h1, h2, h3, h4, h5, h6]
                have hc : Char.ofNat 8 = c := by
                  rw [← h6, Char.ofNat_toNat]
                rw [hesc, List.cons_append, List.cons_append,
                  List.nil_append,
                  psbAux_esc 'b' (Char.ofNat 8) _ (by decide) (by decide),
                  ih, hc]
              · by_cases h7 : c.toNat = 12
                · have hesc : escapeChar c = ['\\', 'f'] := by
                    simp [escapeChar, h1, h2, h3, h4, h5, h6, h7]
                  have hc : Char.ofNat 12 = c := by
                    rw [← h7, Char.ofNat_toNat]
                  rw [hesc, List.cons_append, List.cons_append,
                    List.nil_append,
                    psbAux_esc 'f' (Char.ofNat 12) _ (by decide)
                      (by decide), ih, hc]
                · by_cases h8 : c.toNat < 32
                  · have hesc : escapeChar c =
                        ['\\', 'u', '0', '0', hexDigit (c.toNat / 16),
                         hexDigit (c.toNat % 16)] := by
                      simp [escapeChar, h1, h2, h3, h4, h5, h6, h7, h8]
                    have hv3 : hexVal (hexDigit (c.toNat / 16)) =
                        some (c.toNat / 16) :=
                      hexVal_hexDigit _ (by omega)
                    have hv4 : hexVal (hexDigit (c.toNat % 16)) =
                        some (c.toNat % 16) :=
                      hexVal_hexDigit _ (by omega)
                    have hcp : ((0 * 16 + 0) * 16 + c.toNat / 16) * 16 +
                        c.toNat % 16 = c.toNat := by omega
                    have hc : Char.ofNat c.toNat = c := Char.ofNat_toNat c
                    rw [hesc]
                    simp only [List.cons_append, List.nil_append]
                    rw [psbAux_u '0' '0' (hexDigit (c.toNat / 16))
                      (hexDigit (c.toNat % 16)) 0 0 (c.toNat / 16)
                      (c.toNat % 16) _ (by decide) (by decide) hv3 hv4
                      (by omega), ih]
                    rw [show ((0 * 16 + 0) * 16 + c.toNat / 16) * 16 +
                      c.toNat % 16 = c.toNat from by omega, hc]
                  · have hesc : escapeChar c = [c] := by
                      simp [escapeChar, h1, h2, h3, h4, h5, h6, h7, h8]
                    rw [hesc, List.cons_append, List.nil_append,
                      psbAux_cons_plain c _ h1 h2 h8, ih]

/-- Data of a string built from a character list. -/
theorem stringMk_data (l : List Char) : (String.mk l).data = l := rfl

/-- A rendered scalar followed by a non-digit parses back to itself. -/
theorem scalar_render (v : JVal) (r : List Char)
    (hr : r = [] ∨ ∃ c t, r = c :: t ∧ c.isDigit = false) :
    skipWs (renderValChars v ++ r) = renderValChars v ++ r ∧
    parseScalar (renderValChars v ++ r) = some (v, r) := by
  cases v with
  | jnull => exact ⟨rfl, rfl⟩
  | jbool b => cases b <;> exact ⟨rfl, rfl⟩
  | jnat n => exact ⟨skipWs_natDigits n r, parseScalar_natDigits n r hr⟩
  | jstr s =>
    constructor
    · rfl
    · have hshape : renderValChars (JVal.jstr s) ++ r =
          '\"' :: (escList s.data ++ '\"' :: r) := by
        simp [renderValChars, List.append_assoc]
      rw [hshape]
      have hp := parseStringBody_escList s.data r
      unfold parseScalar
      simp only [parseStringBody] at hp
      simp only [parseStringBody, hp]
      rw [if_pos trivial]

/-- A rendered member list is at least as long as the member count. -/
theorem renderMembers_length (o : JObj) : o.length ≤ (renderMembers o).length := by
  induction o with
  | nil => simp [renderMembers]
  | cons kv rest ih =>
    obtain ⟨k, v⟩ := kv
    cases rest with
    | nil => simp [renderMembers]
    | cons kv2 rest2 =>
      simp only [renderMembers, List.length_cons, List.length_append] at ih ⊢
      omega

/-- Rendered members of a non-empty object parse back to the object. -/
theorem parseMembersF_render : ∀ (o : JObj) (f : Nat), o ≠ [] →
    o.length ≤ f →
    parseMembersF f (renderMembers o ++ ['\x7d']) = some (o, []) := by
  intro o
  induction o with
  | nil => intro f h; exact absurd rfl h
  | cons kv rest ih =>
    intro f _ hf
    obtain ⟨k, v⟩ := kv
    obtain ⟨f2, rfl⟩ : ∃ f2, f = f2 + 1 :=
      ⟨f - 1, by simp only [List.length_cons] at hf; omega⟩
    rw [parseMembersF_succ]
    cases rest with
    | nil =>
      have hval := scalar_render v ['\x7d']
        (Or.inr ⟨'\x7d', [], rfl, by decide⟩)
      have h3 : parseScalar (skipWs (renderValChars v ++ ['\x7d'])) =
          some (v, ['\x7d']) := by rw [hval.1]; exact hval.2
      have hshape : renderMembers [(k, v)] ++ ['\x7d'] =
          '\"' :: (escList k.data ++ '\"' :: ':' ::
            (renderValChars v ++ ['\x7d'])) := by
        simp [renderMembers, List.append_assoc]
      rw [hshape,
        parseMembersStep_eval_end (parseMembersF f2)
          ('\"' :: (escList k.data ++ '\"' :: ':' ::
            (renderValChars v ++ ['\x7d'])))
          _ _ _ _ _ _ _ rfl (parseStringBody_escList k.data _) rfl h3 rfl]
    | cons kv2 rest2 =>
      have hval := scalar_render v
        (',' :: (renderMembers (kv2 :: rest2) ++ ['\x7d']))
        (Or.inr ⟨',', _, rfl, by decide⟩)
      have h3 : parseScalar (skipWs (renderValChars v ++
          ',' :: (renderMembers (kv2 :: rest2) ++ ['\x7d']))) =
          some (v, ',' :: (renderMembers (kv2 :: rest2) ++ ['\x7d'])) := by
        rw [hval.1]; exact hval.2
      have hshape : renderMembers ((k, v) :: kv2 :: rest2) ++ ['\x7d'] =
          '\"' :: (escList k.data ++ '\"' :: ':' ::
            (renderValChars v ++ ',' ::
              (renderMembers (kv2 :: rest2) ++ ['\x7d']))) := by
        simp [renderMembers, List.append_assoc]
      have hrec := ih f2 (by simp) (by simp only [List.length_cons] at hf ⊢; omega)
      rw [hshape,
        parseMembersStep_eval_comma (parseMembersF f2)
          ('\"' :: (escList k.data ++ '\"' :: ':' ::
            (renderValChars v ++ ',' ::
              (renderMembers (kv2 :: rest2) ++ ['\x7d']))))
          _ _ _ _ _ _ _ rfl (parseStringBody_escList k.data _) rfl h3 rfl,
        hrec]

/-- A rendered flat object parses back to itself: the string-level
round trip of the JSON layer. -/
theorem parseJson_renderJObj (o : JObj) : parseJson (renderJObj o) = some o := by
  cases o with
  | nil => rfl
  | cons kv rest =>
    have hne : (kv :: rest) ≠ [] := by simp
    have hlen : (kv :: rest).length ≤
        (renderMembers (kv :: rest) ++ ['\x7d']).length + 1 := by
      have := renderMembers_length (kv :: rest)
      simp only [List.length_append, List.length_singleton]
      omega
    obtain ⟨t, ht⟩ : ∃ t, renderMembers (kv :: rest) = '\"' :: t := by
      obtain ⟨k, v⟩ := kv
      cases rest <;> exact ⟨_, rfl⟩
    have hsk : skipWs (renderMembers (kv :: rest) ++ ['\x7d']) =
        '\"' :: (t ++ ['\x7d']) := by rw [ht]; rfl
    unfold parseJson renderJObj
    rw [stringMk_data, skipWs_brace, parseJsonTop_brace,
      parseJsonInner_members _ _ hsk,
      parseMembersF_render (kv :: rest) _ hne hlen]
    rfl

/-- Value-level round trip for EditEvent. -/
theorem deserialize_serialize_edit (e : EditEvent) :
    deserializeEditEvent (serializeEditEvent e) = some e := by
  cases e with
  | mk d u op p ch t => cases ch <;> rfl

/-- Value-level round trip for ClientMessage. -/
theorem deserialize_serialize_msg (m : ClientMessage) :
    deserializeClientMessage (serializeClientMessage m) = some m := by
  cases m with
  | Edit e =>
    cases e with
    | mk d u op p ch t => cases ch <;> rfl
  | Typing d u b => rfl
  | Cursor d u p => rfl
  | Join d u => rfl
  | Leave d u => rfl


/-! ### Helper lemmas for the registry and session claims -/

/-- No single registry operation removes an existing key. -/
theorem applyOp_preserves_isSome (r : Rooms) (op : RegistryOp) (d : String)
    (h : (r d).isSome = true) : ((applyOp r op) d).isSome = true := by
  cases op with
  | join d2 u2 =>
    simp only [applyOp, roomsJoin, Rooms.set]
    by_cases hd : d = d2 <;> simp [hd, h]
  | leave d2 u2 =>
    simp only [applyOp, roomsLeave]
    cases hr : r d2 with
    | none => simpa using h
    | some l =>
      simp only [Rooms.set]
      by_cases hd : d = d2 <;> simp [hd, h]
  | disconnect s =>
    simp only [applyOp, disconnectCleanup]
    by_cases hc : s.currentDoc ≠ "" ∧ s.currentUser ≠ ""
    · simp only [if_pos hc, roomsLeave]
      cases hr : r s.currentDoc with
      | none => simpa using h
      | some l =>
        simp only [Rooms.set]
        by_cases hd : d = s.currentDoc <;> simp [hd, h]
    · simpa [if_neg hc] using h

/-- No sequence of registry operations removes an existing key. -/
theorem applyOps_preserves_isSome (ops : List RegistryOp) (r : Rooms)
    (d : String) (h : (r d).isSome = true) :
    ((applyOps ops r) d).isSome = true := by
  induction ops generalizing r with
  | nil => simpa [applyOps] using h
  | cons op rest ih =>
    simp only [applyOps, List.foldl_cons]
    exact ih (applyOp r op) (applyOp_preserves_isSome r op d h)

/-- If every Join a session processed had an empty doc or user, the session
ends with an empty `current_doc` or `current_user`. -/
theorem processMsgs_empty_inv (msgs : List ClientMessage) (s : SessionState)
    (r : Rooms) (hall : ∀ m ∈ msgs, joinEmptyOk m = true)
    (hs : s.currentDoc = "" ∨ s.currentUser = "") :
    (processMsgs msgs s r).1.currentDoc = "" ∨
      (processMsgs msgs s r).1.currentUser = "" := by
  induction msgs generalizing s r with
  | nil => simpa [processMsgs] using hs
  | cons m ms ih =>
    have hm := hall m (by simp)
    have hrest : ∀ m2 ∈ ms, joinEmptyOk m2 = true := fun m2 hm2 =>
      hall m2 (by simp [hm2])
    cases m with
    | Edit e => exact ih _ _ hrest hs
    | Typing d u b => exact ih _ _ hrest hs
    | Cursor d u p => exact ih _ _ hrest hs
    | Join d u =>
      refine ih _ _ hrest ?_
      simp only [joinEmptyOk, Bool.or_eq_true, decide_eq_true_eq] at hm
      simpa [sessionStep] using hm
    | Leave d u => exact ih _ _ hrest hs

/-! ### The claims -/

/-- C1, claim as stated is false: when the log append fails, `handle_send`
still answers with the plain success confirmation "Message sent" — the
append result is discarded by `let _ = producer.send(..)`. -/
theorem c1_counterexample :
    handle_send ⟨"d1", "u1", "insert", 0, some "a", 1⟩
      (Except.error "append failed") = "Message sent" := rfl

/-- C1 (amended): for every well-formed EditEvent and every append outcome,
including failure, the endpoint returns the plain success confirmation
"Message sent"; the append error is silently discarded and the process does
not crash on an append failure. -/
theorem c1_returns_success_on_append_failure (payload : EditEvent)
    (res : Except String Unit) : handle_send payload res = "Message sent" :=
  rfl

/-- C2, claim as stated is false: after the same user joins the same room
twice, one disconnect leaves zero entries for that user (the cleanup uses
`retain`, which removes every matching entry), not the one entry the claim
predicts. -/
theorem c2_counterexample :
    (disconnectCleanup
      (processMsgs [ClientMessage.Join "d1" "u1", ClientMessage.Join "d1" "u1"]
        ⟨"", ""⟩ (fun _ => none)).1
      (processMsgs [ClientMessage.Join "d1" "u1", ClientMessage.Join "d1" "u1"]
        ⟨"", ""⟩ (fun _ => none)).2) "d1" = some [] ∧
    ¬ (disconnectCleanup
      (processMsgs [ClientMessage.Join "d1" "u1", ClientMessage.Join "d1" "u1"]
        ⟨"", ""⟩ (fun _ => none)).1
      (processMsgs [ClientMessage.Join "d1" "u1", ClientMessage.Join "d1" "u1"]
        ⟨"", ""⟩ (fun _ => none)).2) "d1" = some ["u1"] := by
  have h : (disconnectCleanup
      (processMsgs [ClientMessage.Join "d1" "u1", ClientMessage.Join "d1" "u1"]
        ⟨"", ""⟩ (fun _ => none)).1
      (processMsgs [ClientMessage.Join "d1" "u1", ClientMessage.Join "d1" "u1"]
        ⟨"", ""⟩ (fun _ => none)).2) "d1" = some [] := rfl
  exact ⟨h, by rw [h]; simp⟩

/-- C2 (amended): closing the connection of a joined session removes every
matching `(doc_id, user_id)` entry from that room's membership list: the
list afterwards is the old list with all occurrences of the user filtered
out, so the user no longer appears at all — in particular two joins
followed by one disconnect leave zero entries, not one. -/
theorem c2_disconnect_removes_all_entries (s : SessionState) (r : Rooms)
    (l : List String) (h1 : ¬s.currentDoc = "") (h2 : ¬s.currentUser = "")
    (h3 : r s.currentDoc = some l) :
    (disconnectCleanup s r) s.currentDoc =
      some (l.filter (fun x => decide (x ≠ s.currentUser))) ∧
    ¬ s.currentUser ∈ ((disconnectCleanup s r) s.currentDoc).getD [] := by
  have hset : (disconnectCleanup s r) s.currentDoc =
      some (l.filter (fun x => decide (x ≠ s.currentUser))) := by
    unfold disconnectCleanup
    rw [if_pos ⟨h1, h2⟩]
    unfold roomsLeave
    rw [h3]
    simp [Rooms.set]
  refine ⟨hset, ?_⟩
  rw [hset]
  simp [List.mem_filter]

/-- C2 witness: concrete instance of the amended claim — a session joined
twice as u1 in d1; disconnect empties the list. -/
theorem c2_witness :
    (disconnectCleanup ⟨"d1", "u1"⟩
      (fun d => if d = "d1" then some ["u1", "u1"] else none)) "d1" =
        some [] ∧
    ¬ "u1" ∈ ((disconnectCleanup ⟨"d1", "u1"⟩
      (fun d => if d = "d1" then some ["u1", "u1"] else none)) "d1").getD [] := by
  have h := c2_disconnect_removes_all_entries ⟨"d1", "u1"⟩
    (fun d => if d = "d1" then some ["u1", "u1"] else none) ["u1", "u1"]
    (by decide) (by decide) (by decide)
  exact ⟨h.1.trans (by decide), h.2⟩

/-- C3, claim as stated is false: the loop does terminate on a bad record.
A record whose bytes are not valid UTF-8 (here the single byte 0xFF) makes
`record.value_string().unwrap()` panic, killing the fan-out task before the
EditEvent decode is ever reached: the loop ends in a panic and a perfectly
good record queued right after it is never notified or published. -/
theorem c3_counterexample :
    utf8Decode [255] = none ∧
    fanoutLoop
      [([255], Except.error "down"),
       ((renderEditEvent ⟨"d1", "u1", "insert", 0, some "a", 1⟩).data.map
          Char.toNat, Except.error "down")] = ([], LoopEnd.panicked) ∧
    fanoutLoop
      [((renderEditEvent ⟨"d1", "u1", "insert", 0, some "a", 1⟩).data.map
          Char.toNat, Except.error "down")] =
      ([FanEvent.notify ⟨"d1", "u1", "insert", 0, some "a", 1⟩
          (Except.error "down"),
        FanEvent.publish ⟨"d1", "u1", "insert", 0, some "a", 1⟩],
       LoopEnd.completed) := by
  refine ⟨by decide, by decide, by decide⟩

/-- C3 (amended): a record whose bytes are not valid UTF-8 terminates the
loop (the `.unwrap()` on `value_string()` panics and no later record is
processed).  For every record whose bytes are valid UTF-8: if the decoded
string fails to decode as EditEvent the record is skipped and the loop
continues with the remaining records, with neither the Notification Sink
nor the Broadcast Bus invoked for it; if it decodes, the Notification Sink
is called once and any notification failure is swallowed, after which the
event is published to the Broadcast Bus regardless of the notification
outcome, and the loop continues. -/
theorem c3_utf8_record_handling (bytes : List Nat)
    (resp : Except String Nat)
    (rest : List (List Nat × Except String Nat)) :
    (utf8Decode bytes = none →
      fanoutLoop ((bytes, resp) :: rest) = ([], LoopEnd.panicked)) ∧
    (∀ chars, utf8Decode bytes = some chars →
      (decodeEditEvent (String.mk chars) = none →
        fanoutOne resp (String.mk chars) = [] ∧
        fanoutLoop ((bytes, resp) :: rest) = fanoutLoop rest) ∧
      (∀ e, decodeEditEvent (String.mk chars) = some e →
        fanoutOne resp (String.mk chars) =
          [FanEvent.notify e (forward_to_webhook resp e),
           FanEvent.publish e] ∧
        fanoutLoop ((bytes, resp) :: rest) =
          (FanEvent.notify e (forward_to_webhook resp e) ::
            FanEvent.publish e :: (fanoutLoop rest).1,
           (fanoutLoop rest).2))) := by
  constructor
  · intro h
    simp [fanoutLoop, h]
  · intro chars hc
    constructor
    · intro hd
      constructor
      · simp [fanoutOne, hd]
      · simp [fanoutLoop, hc, fanoutOne, hd]
    · intro e he
      constructor
      · simp [fanoutOne, he]
      · simp [fanoutLoop, hc, fanoutOne, he]

/-- C3 witness: a panicking non-UTF-8 record, a skipped well-formed-UTF-8
but undecodable record, and a good record that is notified (with a failing
webhook, swallowed) and then published. -/
theorem c3_witness :
    fanoutLoop [([255], Except.error "down")] = ([], LoopEnd.panicked) ∧
    fanoutLoop [("bad".data.map Char.toNat, Except.error "down")] =
      fanoutLoop [] ∧
    fanoutLoop
      [((renderEditEvent ⟨"d1", "u1", "insert", 0, some "a", 1⟩).data.map
          Char.toNat, Except.error "down")] =
      (FanEvent.notify ⟨"d1", "u1", "insert", 0, some "a", 1⟩
          (Except.error "down") ::
        FanEvent.publish ⟨"d1", "u1", "insert", 0, some "a", 1⟩ ::
          (fanoutLoop []).1, (fanoutLoop []).2) := by
  have h1 := (c3_utf8_record_handling [255] (Except.error "down") []).1
    (by decide)
  have h2 := ((c3_utf8_record_handling ("bad".data.map Char.toNat)
    (Except.error "down") []).2 "bad".data (by decide)).1 (by decide)
  have h3 := ((c3_utf8_record_handling
    ((renderEditEvent ⟨"d1", "u1", "insert", 0, some "a", 1⟩).data.map
      Char.toNat) (Except.error "down") []).2
    (renderEditEvent ⟨"d1", "u1", "insert", 0, some "a", 1⟩).data
    (by decide)).2 ⟨"d1", "u1", "insert", 0, some "a", 1⟩ (by decide)
  exact ⟨h1, h2.2, h3.2⟩

/-- C4: a bus-delivered EditEvent is serialized and forwarded to the client
unconditionally: whatever the session state, the registry contents and the
send outcome, the session sends exactly the serialized event — no filtering
by doc_id, no consultation of room membership (the registry is not even
read: it is returned unchanged). -/
theorem c4_bus_delivery_unconditional (s : SessionState) (r : Rooms)
    (e : EditEvent) (ok : Bool) :
    (sessionStep s r (SessionInput.bus e) ok).sent = [renderEditEvent e] ∧
    (sessionStep s r (SessionInput.bus e) ok).rooms = r ∧
    (sessionStep s r (SessionInput.bus e) ok).session = s :=
  ⟨rfl, rfl, rfl⟩

/-- C5, claim as stated is false: a Typing echo whose send to the client
fails does not close the session — the loop keeps running (the source
discards the send result with `let _ = socket.send(..)`). -/
theorem c5_counterexample :
    (sessionStep ⟨"d1", "u1"⟩ (fun _ => none)
      (SessionInput.client (ClientMessage.Typing "d1" "u1" true))
      false).sent = [typingIndicator "u1" true] ∧
    (sessionStep ⟨"d1", "u1"⟩ (fun _ => none)
      (SessionInput.client (ClientMessage.Typing "d1" "u1" true))
      false).running = true := ⟨rfl, rfl⟩

/-- C5 (amended): only the send failure of a bus-delivered EditEvent closes
the session; send failures of Typing and Cursor echoes are discarded and
the session keeps running. -/
theorem c5_send_failure_handling (s : SessionState) (r : Rooms)
    (e : EditEvent) (d u : String) (b : Bool) (p : Nat) :
    (sessionStep s r (SessionInput.bus e) false).running = false ∧
    (sessionStep s r
      (SessionInput.client (ClientMessage.Typing d u b)) false).running
      = true ∧
    (sessionStep s r
      (SessionInput.client (ClientMessage.Cursor d u p)) false).running
      = true :=
  ⟨rfl, rfl, rfl⟩

/-- C6, claim as stated is false: for a user_id containing a quote
character, the string-built Typing echo the session sends is not valid
JSON at all (the interpolated quote terminates the user_id string early
and the parse fails). -/
theorem c6_counterexample :
    (sessionStep ⟨"", ""⟩ (fun _ => none)
      (SessionInput.client (ClientMessage.Typing "d1" "u\"" true))
      true).sent = [typingIndicator "u\"" true] ∧
    parseJson (typingIndicator "u\"" true) = none :=
  ⟨rfl, by decide⟩

/-- C6 (amended): for every Typing or Cursor message whose user_id contains
no quote, no backslash and no control character, the string echoed back is
valid JSON of the documented outbound shape with the message's user_id and
is_typing/position values. -/
theorem c6_echo_json_when_escape_free (d uid : String) (b : Bool) (p : Nat)
    (s : SessionState) (r : Rooms) (ok : Bool)
    (h : escapeFreeB uid = true) :
    (sessionStep s r
      (SessionInput.client (ClientMessage.Typing d uid b)) ok).sent =
      [typingIndicator uid b] ∧
    parseJson (typingIndicator uid b) =
      some [("type", JVal.jstr "typing"), ("user_id", JVal.jstr uid),
            ("is_typing", JVal.jbool b)] ∧
    (sessionStep s r
      (SessionInput.client (ClientMessage.Cursor d uid p)) ok).sent =
      [cursorIndicator uid p] ∧
    parseJson (cursorIndicator uid p) =
      some [("type", JVal.jstr "cursor"), ("user_id", JVal.jstr uid),
            ("position", JVal.jnat p)] := by
  have hfree := escapeFreeB_spec uid h
  refine ⟨rfl, ?_, rfl, parseJson_cursor uid p hfree⟩
  cases b
  · exact parseJson_typing_false uid hfree
  · exact parseJson_typing_true uid hfree

/-- C6 witness: concrete instance of the amended claim for user u1. -/
theorem c6_witness :
    (sessionStep ⟨"", ""⟩ (fun _ => none)
      (SessionInput.client (ClientMessage.Typing "d1" "u1" true)) true).sent =
      [typingIndicator "u1" true] ∧
    parseJson (typingIndicator "u1" true) =
      some [("type", JVal.jstr "typing"), ("user_id", JVal.jstr "u1"),
            ("is_typing", JVal.jbool true)] ∧
    (sessionStep ⟨"", ""⟩ (fun _ => none)
      (SessionInput.client (ClientMessage.Cursor "d1" "u1" 7)) true).sent =
      [cursorIndicator "u1" 7] ∧
    parseJson (cursorIndicator "u1" 7) =
      some [("type", JVal.jstr "cursor"), ("user_id", JVal.jstr "u1"),
            ("position", JVal.jnat 7)] :=
  c6_echo_json_when_escape_free "d1" "u1" true 7 ⟨"", ""⟩ (fun _ => none)
    true (by decide)

/-- C7: processing Join then immediately Leave for the same pair leaves the
room without that user; and a Leave handled when the room does not exist is
a no-op on the registry, not an error. -/
theorem c7_join_then_leave (s : SessionState) (r : Rooms) (d u : String) :
    ¬ u ∈ (((processMsgs [ClientMessage.Join d u, ClientMessage.Leave d u]
      s r).2 d).getD []) ∧
    (r d = none →
      (sessionStep s r
        (SessionInput.client (ClientMessage.Leave d u)) true).rooms = r) := by
  constructor
  · show ¬ u ∈ (((roomsLeave (roomsJoin r d u) d u) d).getD [])
    simp [roomsLeave, roomsJoin, Rooms.set, List.mem_filter]
  · intro h
    show roomsLeave r d u = r
    simp [roomsLeave, h]

/-- C7 witness: concrete instance on the empty registry. -/
theorem c7_witness :
    ¬ "u1" ∈ (((processMsgs
      [ClientMessage.Join "d1" "u1", ClientMessage.Leave "d1" "u1"]
      ⟨"", ""⟩ (fun _ => none)).2 "d1").getD []) ∧
    (sessionStep ⟨"", ""⟩ (fun _ => none)
      (SessionInput.client (ClientMessage.Leave "d1" "u1")) true).rooms =
      (fun _ => none) :=
  ⟨(c7_join_then_leave ⟨"", ""⟩ (fun _ => none) "d1" "u1").1,
   (c7_join_then_leave ⟨"", ""⟩ (fun _ => none) "d1" "u1").2 rfl⟩

/-- C8: serializing any EditEvent or ClientMessage with the program's
serialization (`serde_json::to_string`, embedded as `renderEditEvent` /
`renderClientMessage`) and deserializing the resulting JSON text
(`serde_json::from_str`, embedded as `decodeEditEvent` /
`decodeClientMessage`) yields the original value. -/
theorem c8_serialization_roundtrip :
    (∀ e : EditEvent, decodeEditEvent (renderEditEvent e) = some e) ∧
    (∀ m : ClientMessage,
      decodeClientMessage (renderClientMessage m) = some m) := by
  constructor
  · intro e
    show (parseJson (renderJObj (serializeEditEvent e))).bind
      deserializeEditEvent = some e
    rw [parseJson_renderJObj]
    exact deserialize_serialize_edit e
  · intro m
    show (parseJson (renderJObj (serializeClientMessage m))).bind
      deserializeClientMessage = some m
    rw [parseJson_renderJObj]
    exact deserialize_serialize_msg m

/-- C9: no operation (Join, Leave or disconnect cleanup, in any sequence)
ever removes a doc_id key from the registry, and Join creates the key when
absent — so a room whose list becomes empty persists as an empty list. -/
theorem c9_registry_keys_persist (ops : List RegistryOp) (r : Rooms)
    (d d2 u2 : String) (h : (r d).isSome = true) :
    ((applyOps ops r) d).isSome = true ∧
    ((roomsJoin r d2 u2) d2).isSome = true := by
  refine ⟨applyOps_preserves_isSome ops r d h, ?_⟩
  simp [roomsJoin, Rooms.set]

/-- C9 witness: a room emptied by a leave and a disconnect still has its
key. -/
theorem c9_witness :
    ((applyOps
      [RegistryOp.join "d1" "u1", RegistryOp.leave "d1" "u1",
       RegistryOp.disconnect ⟨"d1", "u1"⟩]
      (fun d => if d = "d1" then some [] else none)) "d1").isSome = true ∧
    ((roomsJoin (fun d => if d = "d1" then some [] else none) "d2" "u2")
      "d2").isSome = true :=
  c9_registry_keys_persist
    [RegistryOp.join "d1" "u1", RegistryOp.leave "d1" "u1",
     RegistryOp.disconnect ⟨"d1", "u1"⟩]
    (fun d => if d = "d1" then some [] else none) "d1" "d2" "u2" (by decide)

/-- C10: if every Join a session processed had an empty doc_id or an empty
user_id, disconnecting leaves the registry unchanged (the cleanup guard
requires both session fields non-empty), even though each such Join still
appended its entry to the registry. -/
theorem c10_empty_join_disconnect_noop (msgs : List ClientMessage)
    (r : Rooms) (d2 u2 : String)
    (hall : ∀ m ∈ msgs, joinEmptyOk m = true) :
    disconnectCleanup (processMsgs msgs ⟨"", ""⟩ r).1
      (processMsgs msgs ⟨"", ""⟩ r).2 = (processMsgs msgs ⟨"", ""⟩ r).2 ∧
    (roomsJoin r d2 u2) d2 = some (((r d2).getD []) ++ [u2]) := by
  constructor
  · have hinv := processMsgs_empty_inv msgs ⟨"", ""⟩ r hall (Or.inl rfl)
    unfold disconnectCleanup
    rw [if_neg]
    intro hc
    rcases hinv with h | h
    · exact hc.1 h
    · exact hc.2 h
  · simp [roomsJoin, Rooms.set]

/-- C10 witness: a single Join with an empty doc_id appends its entry, and
the disconnect cleanup leaves the registry unchanged. -/
theorem c10_witness :
    disconnectCleanup
      (processMsgs [ClientMessage.Join "" "u1"] ⟨"", ""⟩ (fun _ => none)).1
      (processMsgs [ClientMessage.Join "" "u1"] ⟨"", ""⟩ (fun _ => none)).2 =
      (processMsgs [ClientMessage.Join "" "u1"] ⟨"", ""⟩ (fun _ => none)).2 ∧
    (roomsJoin (fun _ => none) "" "u1") "" = some ["u1"] := by
  have h := c10_empty_join_disconnect_noop [ClientMessage.Join "" "u1"]
    (fun _ => none) "" "u1" (by decide)
  exact ⟨h.1, h.2.trans (by decide)⟩
